import Mathlib

/-!
Verification of the CSS conflict-detection engine of `textual-mcp`
(`src/textual_mcp/validators/conflict_detector.py`), as a shallow embedding.
-/

namespace TextualCSS

/-- Selector decomposition into five component sets, embedding
`SelectorOverlapAnalyzer._parse_selector_parts`'s result dictionary. -/
structure SelectorParts where
  types : Finset String
  classes : Finset String
  ids : Finset String
  pseudos : Finset String
  attributes : Finset String
  deriving DecidableEq

/-- The all-empty decomposition (the initial `parts` dictionary). -/
def SelectorParts.empty : SelectorParts := ⟨∅, ∅, ∅, ∅, ∅⟩

/-- Characters that terminate a name token in the scanner: `.`, `#`, `:`, `[`. -/
def isStopChar (c : Char) : Bool :=
  c == '.' || c == '#' || c == ':' || c == '['

/-- Flush the accumulated type characters into `types` (the
`if current_type: parts["types"].add(current_type)` pattern). -/
def flushType (curType : List Char) (acc : SelectorParts) : SelectorParts :=
  if curType = [] then acc
  else { acc with types := insert (String.mk curType) acc.types }

/-- Scan one whitespace-separated compound token, embedding the character
loop of `_parse_selector_parts` (index jumps become takeWhile/dropWhile).
The loop advances at least one position per iteration, so a fuel of
`cs.length + 1` always runs the scan to completion. -/
def scanCompoundAux : Nat → List Char → List Char → SelectorParts → SelectorParts
  | 0, _, curType, acc => flushType curType acc
  | _ + 1, [], curType, acc => flushType curType acc
  | fuel + 1, c :: rest, curType, acc =>
    if c == '#' then
      let acc1 := flushType curType acc
      let name := rest.takeWhile (fun d => !isStopChar d)
      scanCompoundAux fuel (rest.dropWhile (fun d => !isStopChar d)) []
        { acc1 with ids := insert (String.mk name) acc1.ids }
    else if c == '.' then
      let acc1 := flushType curType acc
      let name := rest.takeWhile (fun d => !isStopChar d)
      scanCompoundAux fuel (rest.dropWhile (fun d => !isStopChar d)) []
        { acc1 with classes := insert (String.mk name) acc1.classes }
    else if c == ':' then
      let acc1 := flushType curType acc
      match rest with
      | d :: rest1 =>
        if d == ':' then
          scanCompoundAux fuel (rest1.dropWhile (fun e => !isStopChar e)) [] acc1
        else
          let name := rest.takeWhile (fun e => !isStopChar e)
          scanCompoundAux fuel (rest.dropWhile (fun e => !isStopChar e)) []
            { acc1 with pseudos := insert (String.mk name) acc1.pseudos }
      | [] => { acc1 with pseudos := insert "" acc1.pseudos }
    else if c == '[' then
      let acc1 := flushType curType acc
      if rest.contains ']' then
        let content := rest.takeWhile (fun e => !(e == ']'))
        scanCompoundAux fuel ((rest.dropWhile (fun e => !(e == ']'))).tail) []
          { acc1 with
            attributes := insert (String.mk ('[' :: (content ++ [']']))) acc1.attributes }
      else
        scanCompoundAux fuel rest [] acc1
    else
      scanCompoundAux fuel rest (curType ++ [c]) acc

/-- Scan a full compound token starting with an empty type accumulator. -/
def scanCompound (cs : List Char) (acc : SelectorParts) : SelectorParts :=
  scanCompoundAux (cs.length + 1) cs [] acc

/-- Split a character list on whitespace runs, dropping empty tokens
(the semantics of Python's argumentless `str.split`). -/
def splitWhitespaceAux : Nat → List Char → List (List Char)
  | 0, _ => []
  | _ + 1, [] => []
  | fuel + 1, c :: rest =>
    if c.isWhitespace then splitWhitespaceAux fuel rest
    else
      (c :: rest.takeWhile (fun d => !d.isWhitespace)) ::
        splitWhitespaceAux fuel (rest.dropWhile (fun d => !d.isWhitespace))

/-- Split on whitespace with always-sufficient fuel. -/
def splitWhitespace (cs : List Char) : List (List Char) :=
  splitWhitespaceAux (cs.length + 1) cs

/-- Embedding of `SelectorOverlapAnalyzer._parse_selector_parts`: combinator
characters are normalized to spaces, the string is split on whitespace, and
every compound token is scanned into one shared `SelectorParts` value. -/
def parseSelectorParts (selector : String) : SelectorParts :=
  let normalized := selector.data.map
    (fun c => if c == '>' || c == '+' || c == '~' then ' ' else c)
  (splitWhitespace normalized).foldl
    (fun acc part => scanCompound part acc) SelectorParts.empty

/-- Embedding of `SelectorOverlapAnalyzer._is_subset`. -/
def isSubsetParts (p1 p2 : SelectorParts) : Bool :=
  (decide (p1.types ⊆ p2.types) && decide (p1.classes ⊆ p2.classes) &&
   decide (p1.ids ⊆ p2.ids) && decide (p1.pseudos ⊆ p2.pseudos) &&
   decide (p1.attributes ⊆ p2.attributes)) &&
  (decide (p1.types ≠ ∅) || decide (p1.classes ≠ ∅) || decide (p1.ids ≠ ∅) ||
   decide (p1.pseudos ≠ ∅) || decide (p1.attributes ≠ ∅)) &&
  (decide (p1.types.card < p2.types.card) ||
   decide (p1.classes.card < p2.classes.card) ||
   decide (p1.ids.card < p2.ids.card) ||
   decide (p1.pseudos.card < p2.pseudos.card) ||
   decide (p1.attributes.card < p2.attributes.card))

/-- Embedding of `SelectorOverlapAnalyzer._has_partial_overlap`. -/
def hasPartialOverlap (p1 p2 : SelectorParts) : Bool :=
  decide ((p1.types ∩ p2.types) ≠ ∅) ||
  decide ((p1.ids ∩ p2.ids) ≠ ∅) ||
  decide (2 ≤ (p1.classes ∩ p2.classes).card)

/-- Embedding of `SelectorOverlapAnalyzer.analyze_overlap`. -/
def analyzeOverlap (selector1 selector2 : String) : Option String :=
  if selector1 = selector2 then some "exact"
  else
    let p1 := parseSelectorParts selector1
    let p2 := parseSelectorParts selector2
    if isSubsetParts p1 p2 then some "subset"
    else if isSubsetParts p2 p1 then some "subset"
    else if hasPartialOverlap p1 p2 then some "partial"
    else none

/-- Embedding of `SelectorOverlapAnalyzer._calculate_specificity`. -/
def calculateSpecificity (selector : String) : Nat × Nat × Nat :=
  let parts := parseSelectorParts selector
  (parts.ids.card,
   parts.classes.card + parts.attributes.card + parts.pseudos.card,
   parts.types.card)

/-- Embedding of the `SelectorOverlap` dataclass. -/
structure SelectorOverlap where
  selectors : List String
  overlap_type : String
  specificity_scores : List (Nat × Nat × Nat)
  deriving DecidableEq

/-- The overall type reported for a group, from the set of pairwise overlap
kinds observed while building it (`exact` beats `subset` beats the rest). -/
def overallType (otypes : Finset String) : String :=
  if "exact" ∈ otypes then "exact"
  else if "subset" ∈ otypes then "subset"
  else "partial"

/-- Worker for `find_overlapping_groups`: `processed` collects selectors
already placed in a group (the seed of each group is also added after its
scan).  The inner loop over the later selectors appends every selector that
overlaps the seed — without consulting `processed` — and records the overlap
kinds it saw. -/
def findOverlappingGroupsAux : List String → Finset String → List SelectorOverlap
  | [], _ => []
  | sel1 :: rest, processed =>
    if sel1 ∈ processed then findOverlappingGroupsAux rest processed
    else
      let members := rest.filter (fun sel2 => (analyzeOverlap sel1 sel2).isSome)
      let group := sel1 :: members
      let otypes := (rest.filterMap (fun sel2 => analyzeOverlap sel1 sel2)).toFinset
      let processed2 := insert sel1 (processed ∪ members.toFinset)
      let tailGroups := findOverlappingGroupsAux rest processed2
      if 1 < group.length then
        { selectors := group
          overlap_type := overallType otypes
          specificity_scores := group.map calculateSpecificity } :: tailGroups
      else tailGroups

/-- Embedding of `SelectorOverlapAnalyzer.find_overlapping_groups`. -/
def findOverlappingGroups (selectors : List String) : List SelectorOverlap :=
  findOverlappingGroupsAux selectors ∅

/-- The fixed shorthand-to-longhand expansion table
(`PropertyConflictDetector.shorthand_expansions`), in declaration order. -/
def shorthandExpansions : List (String × List String) :=
  [("margin", ["margin-top", "margin-right", "margin-bottom", "margin-left"]),
   ("padding", ["padding-top", "padding-right", "padding-bottom", "padding-left"]),
   ("border", ["border-width", "border-style", "border-color"]),
   ("offset", ["offset-x", "offset-y"])]

/-- A property map: an association list standing for the Python dict
(keys unique, insertion-ordered). -/
abbrev PropMap := List (String × String)

/-- Dict key lookup. -/
def lookupProp (props : PropMap) (key : String) : Option String :=
  match props.find? (fun kv => kv.1 = key) with
  | some kv => some kv.2
  | none => none

/-- Dict key membership (`key in props`). -/
def hasProp (props : PropMap) (key : String) : Bool :=
  (lookupProp props key).isSome

/-- Embedding of `PropertyConflictDetector._expand_properties`: iterate the
declared properties in order and, for each shorthand, synthesize any longhand
entry not already present in the growing expanded map. -/
def expandProperties (props : PropMap) : PropMap :=
  props.foldl
    (fun expanded kv =>
      match (shorthandExpansions.find? (fun s => s.1 = kv.1)) with
      | some s =>
        s.2.foldl
          (fun expanded2 longhand =>
            if hasProp expanded2 longhand then expanded2
            else expanded2 ++ [(longhand, kv.2)])
          expanded
      | none => expanded)
    props

/-- Embedding of `PropertyConflictDetector._check_shorthand_conflicts`. -/
def checkShorthandConflicts (props1 props2 : PropMap) : List String :=
  shorthandExpansions.foldl
    (fun conflicts s =>
      let dir1 := if hasProp props1 s.1
        then s.2.filter (fun longhand => hasProp props2 longhand) else []
      let dir2 := if hasProp props2 s.1
        then s.2.filter (fun longhand => hasProp props1 longhand) else []
      conflicts ++ dir1 ++ dir2)
    []

/-- A parsed rule as handed to the detectors: a selector, a property map and
an optional source line (the `rule_data` dictionaries of the orchestrator). -/
structure ParsedRule where
  selector : String
  properties : PropMap
  line : Option Nat
  deriving DecidableEq

/-- Embedding of `PropertyConflictDetector.detect_conflicts`: direct
collisions on the expanded maps (same name, different value) plus the
cross shorthand/longhand collisions, deduplicated.  The Python function
returns `list(set(...))` whose order is unspecified; `List.dedup` is the
deterministic representative used here, so only membership and emptiness
of the result are meaningful. -/
def detectConflicts (rule1 rule2 : ParsedRule) : List String :=
  let expanded1 := expandProperties rule1.properties
  let expanded2 := expandProperties rule2.properties
  let direct := expanded1.filterMap
    (fun kv =>
      match lookupProp expanded2 kv.1 with
      | some v2 => if lookupProp expanded1 kv.1 ≠ some v2 then some kv.1 else none
      | none => none)
  (direct ++ checkShorthandConflicts rule1.properties rule2.properties).dedup

/-- The fixed semantic category table
(`PropertyConflictDetector.property_groups`), in declaration order. -/
def propertyGroups : List (String × List String) :=
  [("positioning", ["position", "top", "right", "bottom", "left", "dock", "offset"]),
   ("sizing", ["width", "height", "min-width", "max-width", "min-height", "max-height"]),
   ("spacing", ["margin", "margin-top", "margin-right", "margin-bottom", "margin-left",
                "padding", "padding-top", "padding-right", "padding-bottom", "padding-left"]),
   ("colors", ["color", "background", "background-color", "border-color", "tint"]),
   ("borders", ["border", "border-top", "border-right", "border-bottom", "border-left",
                "border-width", "border-style", "border-color"]),
   ("layout", ["display", "layer", "layout", "align", "content-align"]),
   ("text", ["text-align", "text-style", "text-opacity"]),
   ("scrolling", ["scrollbar-color", "scrollbar-size", "overflow", "overflow-x", "overflow-y"])]

/-- The first category, in table order, whose set contains the property;
`other` when none does (the `for ... break / else` of `categorize_conflicts`). -/
def firstCategory (prop : String) : String :=
  match propertyGroups.find? (fun g => prop ∈ g.2) with
  | some g => g.1
  | none => "other"

/-- Append a value to a key's bucket in an insertion-ordered association
list, creating the bucket at the end when absent (a `defaultdict(list)`). -/
def alistAppend {β : Type} (buckets : List (String × List β)) (key : String) (val : β) :
    List (String × List β) :=
  match buckets with
  | [] => [(key, [val])]
  | (k, vs) :: rest =>
    if k = key then (k, vs ++ [val]) :: rest
    else (k, vs) :: alistAppend rest key val

/-- Embedding of `PropertyConflictDetector.categorize_conflicts`. -/
def categorizeConflicts (conflicts : List String) : List (String × List String) :=
  conflicts.foldl (fun buckets c => alistAppend buckets (firstCategory c) c) []

/-- Embedding of the `StyleConflict` dataclass. -/
structure StyleConflict where
  selector1 : String
  selector2 : String
  conflicting_properties : List String
  specificity1 : Nat × Nat × Nat
  specificity2 : Nat × Nat × Nat
  line1 : Option Nat
  line2 : Option Nat
  resolution_suggestion : Option String
  deriving DecidableEq

/-- Sum of the three specificity components (`sum(specificity)`). -/
def sumSpec (s : Nat × Nat × Nat) : Nat := s.1 + s.2.1 + s.2.2

/-- Distance between two naturals (`abs(spec1 - spec2)` on Python ints). -/
def natDist (a b : Nat) : Nat := if a ≤ b then b - a else a - b

/-- Python's `str` rendering of a specificity triple, e.g. `(1, 2, 0)`. -/
def fmtSpec (s : Nat × Nat × Nat) : String :=
  "(" ++ toString s.1 ++ ", " ++ toString s.2.1 ++ ", " ++ toString s.2.2 ++ ")"

/-- Embedding of `ConflictResolutionSuggester.suggest_resolution`. -/
def suggestResolution (c : StyleConflict) : String :=
  let spec1 := sumSpec c.specificity1
  let spec2 := sumSpec c.specificity2
  let byspec :=
    if spec1 = spec2 then
      ["Selectors \x27" ++ c.selector1 ++ "\x27 and \x27" ++ c.selector2 ++
        "\x27 have equal specificity. Consider using more specific selectors or reordering rules."]
    else if 2 ≤ natDist spec1 spec2 then
      let higher := if spec2 < spec1 then c.selector1 else c.selector2
      let lower := if spec2 < spec1 then c.selector2 else c.selector1
      ["Selector \x27" ++ higher ++ "\x27 has higher specificity than \x27" ++ lower ++
        "\x27. Consider simplifying it to improve maintainability."]
    else []
  let byprops :=
    if c.conflicting_properties.contains "margin" &&
        c.conflicting_properties.contains "padding" then
      ["Both margin and padding are conflicting. Consider using a consistent spacing system."]
    else []
  let bycount :=
    if 3 < c.conflicting_properties.length then
      ["Multiple properties are conflicting. Consider creating a shared base class or using CSS variables for consistent styling."]
    else []
  let byids :=
    if c.selector1.data.contains '#' && c.selector2.data.contains '#' then
      ["Both selectors use IDs. IDs should be unique - consider using classes instead."]
    else []
  let suggestions := byspec ++ byprops ++ bycount ++ byids
  if suggestions = [] then
    "Consider using more specific selectors or reorganizing your CSS structure."
  else String.intercalate " " suggestions

/-- The duplicate-selectors message emitted for an `exact` overlap group. -/
def duplicateSelectorsMsg (selectors : List String) : String :=
  "Duplicate selectors found: " ++ String.intercalate ", " selectors ++
    ". Merge these rules to avoid confusion."

/-- Embedding of `ConflictResolutionSuggester.suggest_selector_improvements`. -/
def suggestSelectorImprovements (ov : SelectorOverlap) : List String :=
  let byKind :=
    if ov.overlap_type = "exact" then [duplicateSelectorsMsg ov.selectors]
    else if ov.overlap_type = "subset" then
      ["Selector subset relationship detected in: " ++
        String.intercalate ", " ov.selectors ++
        ". Ensure the more specific selector comes after the general one."]
    else []
  let perSelector := (ov.selectors.zip ov.specificity_scores).filterMap
    (fun p =>
      let s := sumSpec p.2
      if 10 < s then
        some ("Selector \x27" ++ p.1 ++ "\x27 has high specificity (" ++ fmtSpec p.2 ++
          "). Consider simplifying or using utility classes.")
      else if 4 ≤ s then
        some ("Selector \x27" ++ p.1 ++ "\x27 has high specificity (score: " ++
          toString s ++ "). Consider simplifying.")
      else none)
  byKind ++ perSelector

/-- Embedding of a `specificity_issues` entry. -/
structure SpecificityIssue where
  selector : String
  specificity : Nat × Nat × Nat
  score : Nat
  issue : String
  deriving DecidableEq

/-- The specificity-issue classification chain of `analyze_conflicts`
(first matching branch wins; `none` when no branch fires). -/
def specificityIssueFor (sel : String) : Option SpecificityIssue :=
  let spec := calculateSpecificity sel
  let s := sumSpec spec
  if 10 < s then some ⟨sel, spec, s, "High specificity - consider simplifying"⟩
  else if 1 < spec.1 then
    some ⟨sel, spec, s, "Multiple IDs in selector - avoid if possible"⟩
  else if 1 ≤ spec.1 && 3 ≤ s then
    some ⟨sel, spec, s, "ID with additional selectors - consider simplifying"⟩
  else if 5 ≤ s then
    some ⟨sel, spec, s, "Moderately high specificity - review if needed"⟩
  else none

/-- Embedding of the aggregate `ConflictAnalysisResult` dataclass. -/
structure ConflictAnalysisResult where
  conflicts : List StyleConflict
  overlapping_selectors : List SelectorOverlap
  resolution_suggestions : List String
  property_conflicts : List (String × List String)
  specificity_issues : List SpecificityIssue
  deriving DecidableEq

/-- The derived summary dictionary. -/
structure AnalysisSummary where
  total_conflicts : Nat
  total_overlaps : Nat
  has_issues : Bool
  total_specificity_issues : Nat
  deriving DecidableEq

/-- Embedding of the `ConflictAnalysisResult.summary` property. -/
def ConflictAnalysisResult.summary (r : ConflictAnalysisResult) : AnalysisSummary :=
  { total_conflicts := r.conflicts.length
    total_overlaps := r.overlapping_selectors.length
    has_issues := decide (0 < r.conflicts.length) || decide (0 < r.overlapping_selectors.length)
    total_specificity_issues := r.specificity_issues.length }

/-- The `selector → [rule]` index built by the orchestrator, an
insertion-ordered dictionary of rule lists. -/
def selectorToRules (rules : List ParsedRule) : List (String × List ParsedRule) :=
  rules.foldl (fun idx r => alistAppend idx r.selector r) []

/-- Index lookup with the `defaultdict` empty-list default. -/
def lookupRules (idx : List (String × List ParsedRule)) (sel : String) :
    List ParsedRule :=
  match idx.find? (fun kv => kv.1 = sel) with
  | some kv => kv.2
  | none => []

/-- All ordered pairs `(l[i], l[j])` with `i < j`, in the nested-loop order
of `for i, x in enumerate(l): for y in l[i+1:]`. -/
def listPairs {α : Type} : List α → List (α × α)
  | [] => []
  | x :: xs => (xs.map (fun y => (x, y))) ++ listPairs xs

/-- Build the `StyleConflict` emitted for a colliding pair of rules found
through an overlap group, with specificities looked up positionally in the
group and the resolution suggestion attached. -/
def mkOverlapConflict (ov : SelectorOverlap) (sel1 sel2 : String)
    (r1 r2 : ParsedRule) (cs : List String) : StyleConflict :=
  let base : StyleConflict :=
    { selector1 := sel1, selector2 := sel2, conflicting_properties := cs
      specificity1 := ov.specificity_scores.getD (ov.selectors.indexOf sel1) (0, 0, 0)
      specificity2 := ov.specificity_scores.getD (ov.selectors.indexOf sel2) (0, 0, 0)
      line1 := r1.line, line2 := r2.line, resolution_suggestion := none }
  { base with resolution_suggestion := some (suggestResolution base) }

/-- Conflicts found across the selector pairs of the detected overlap
groups (the first collection loop of `analyze_conflicts`). -/
def overlapPairConflicts (idx : List (String × List ParsedRule))
    (overlaps : List SelectorOverlap) : List StyleConflict :=
  overlaps.flatMap (fun ov =>
    (listPairs ov.selectors).flatMap (fun p =>
      (lookupRules idx p.1).flatMap (fun r1 =>
        (lookupRules idx p.2).filterMap (fun r2 =>
          let cs := detectConflicts r1 r2
          if cs = [] then none else some (mkOverlapConflict ov p.1 p.2 r1 r2 cs)))))

/-- Build the `StyleConflict` emitted for duplicate rules under one selector. -/
def mkDuplicateConflict (sel : String) (spec : Nat × Nat × Nat)
    (r1 r2 : ParsedRule) (cs : List String) : StyleConflict :=
  let base : StyleConflict :=
    { selector1 := sel, selector2 := sel, conflicting_properties := cs
      specificity1 := spec, specificity2 := spec
      line1 := r1.line, line2 := r2.line, resolution_suggestion := none }
  { base with resolution_suggestion := some (suggestResolution base) }

/-- The duplicate-selector pass of `analyze_conflicts`: for every selector
with more than one rule it appends pairwise conflicts, and appends a
synthetic `exact` overlap group unless some already-present group (from
the analyzer or appended earlier in this very pass — the Python code
mutates the one shared list) mentions the selector. -/
def duplicateSelectorStep (st : List StyleConflict × List SelectorOverlap)
    (kv : String × List ParsedRule) : List StyleConflict × List SelectorOverlap :=
  if 1 < kv.2.length then
    let spec := calculateSpecificity kv.1
    let newConflicts := (listPairs kv.2).filterMap (fun p =>
      let cs := detectConflicts p.1 p.2
      if cs = [] then none else some (mkDuplicateConflict kv.1 spec p.1 p.2 cs))
    let overlaps2 :=
      if st.2.any (fun ov => ov.selectors.contains kv.1) then st.2
      else st.2 ++
        [{ selectors := List.replicate kv.2.length kv.1
           overlap_type := "exact"
           specificity_scores := List.replicate kv.2.length spec }]
    (st.1 ++ newConflicts, overlaps2)
  else st

def duplicateSelectorPass (idx : List (String × List ParsedRule))
    (initConflicts : List StyleConflict) (initOverlaps : List SelectorOverlap) :
    List StyleConflict × List SelectorOverlap :=
  idx.foldl duplicateSelectorStep (initConflicts, initOverlaps)

/-- Embedding of the normal (parse succeeded) path of
`ConflictDetector.analyze_conflicts`, starting from the extracted rule
data.  Rules with empty property maps are skipped when indexing; the
suggestion loop runs over the final overlap list, which — through Python
list aliasing — includes the groups appended by the duplicate pass. -/
def analyzeConflictsCore (inputRules : List ParsedRule) : ConflictAnalysisResult :=
  let rules := inputRules.filter (fun r => !r.properties.isEmpty)
  let idx := selectorToRules rules
  let allSelectors := idx.map Prod.fst
  let overlaps := findOverlappingGroups allSelectors
  let conflicts1 := overlapPairConflicts idx overlaps
  let final := duplicateSelectorPass idx conflicts1 overlaps
  let allConflictProps := final.1.flatMap (fun c => c.conflicting_properties)
  { conflicts := final.1
    overlapping_selectors := final.2
    resolution_suggestions := final.2.flatMap suggestSelectorImprovements
    property_conflicts :=
      if allConflictProps.isEmpty then [] else categorizeConflicts allConflictProps
    specificity_issues := allSelectors.filterMap specificityIssueFor }

/-- The three distinguished error kinds the external stylesheet parser can
raise (`StylesheetError`, `DeclarationError`, `UnresolvedVariableError`),
each carrying its message. -/
inductive ParseError where
  | stylesheetError (msg : String)
  | declarationError (msg : String)
  | unresolvedVariableError (msg : String)
  deriving DecidableEq

/-- The message carried by a parse error (`str(e)`). -/
def ParseError.message : ParseError → String
  | .stylesheetError msg => msg
  | .declarationError msg => msg
  | .unresolvedVariableError msg => msg

/-- Embedding of `ConflictDetector.analyze_conflicts` with the external
parse step abstracted as an `Except` input: a raised parse error is caught
and turned into a parse-error result; otherwise the extracted rules flow
through the normal pipeline. -/
def analyzeConflicts (parsed : Except ParseError (List ParsedRule)) :
    ConflictAnalysisResult :=
  match parsed with
  | .error e =>
    { conflicts := []
      overlapping_selectors := []
      resolution_suggestions := ["CSS parsing error: " ++ e.message]
      property_conflicts := [("parsing_errors", [e.message])]
      specificity_issues := [] }
  | .ok rules => analyzeConflictsCore rules

/-- The Specificity Calculator exactly as the spec states it (§4.2),
including the `type_count = max(1, type_count)` flooring; stated from the
spec's words for comparison with `calculateSpecificity`. -/
def specificitySpec (p : SelectorParts) : Nat × Nat × Nat :=
  let idCount := p.ids.card
  let classCount := p.classes.card + p.attributes.card + p.pseudos.card
  let typeCount := p.types.card
  if 0 < idCount || 0 < classCount || 0 < typeCount then
    (idCount, classCount, max 1 typeCount)
  else (idCount, classCount, typeCount)

/-- The specificity triple with `type_count = |types|` and no flooring
(the amended form of §4.2). -/
def specificityAmended (p : SelectorParts) : Nat × Nat × Nat :=
  (p.ids.card, p.classes.card + p.attributes.card + p.pseudos.card, p.types.card)

example :
    detectConflicts ⟨"a", [("color", "red"), ("background", "blue"), ("margin", "1 2")], none⟩
      ⟨"a", [("color", "green"), ("background", "blue"), ("padding", "2 4")], none⟩
      = ["color"] := by decide
example :
    "margin-top" ∈ detectConflicts ⟨"a", [("margin", "1 2 3 4")], none⟩
      ⟨"a", [("margin-top", "5"), ("margin-left", "6")], none⟩ := by decide
example :
    categorizeConflicts ["margin", "color", "width", "dock", "unknown-property"] =
      [("spacing", ["margin"]), ("colors", ["color"]), ("sizing", ["width"]),
       ("positioning", ["dock"]), ("other", ["unknown-property"])] := by decide
example :
    (findOverlappingGroups ["Button", ".active", "Button.active"]).map
      SelectorOverlap.selectors =
      [["Button", "Button.active"], [".active", "Button.active"]] := by decide

example : calculateSpecificity "#id" = (1, 0, 0) := by decide
example : calculateSpecificity ".class" = (0, 1, 0) := by decide
example : calculateSpecificity "Button" = (0, 0, 1) := by decide
example : calculateSpecificity "#id.class" = (1, 1, 0) := by decide
example : calculateSpecificity "Button.class" = (0, 1, 1) := by decide
example : calculateSpecificity "Button#id.class" = (1, 1, 1) := by decide
example : calculateSpecificity "Button:hover" = (0, 1, 1) := by decide
example : calculateSpecificity "Button:hover:focus" = (0, 2, 1) := by decide
example : analyzeOverlap "Button" "Button" = some "exact" := by decide
example : analyzeOverlap "Button" "Label" = none := by decide
example : analyzeOverlap "Button" "Button.active" = some "subset" := by decide
example : analyzeOverlap ".class1" "Button.class1" = some "subset" := by decide
example : analyzeOverlap "Button.primary" "Button.secondary" = some "partial" := by decide
example : analyzeOverlap "#main.active" "#main.inactive" = some "partial" := by decide

/-! ## Helper lemmas -/

/-- A left fold that only appends per-element blocks is the initial
accumulator followed by the concatenation of the blocks. -/
theorem foldl_append_blocks {α : Type} (f g : α → List String) (l : List α)
    (acc : List String) :
    l.foldl (fun c s => c ++ f s ++ g s) acc = acc ++ l.flatMap (fun s => f s ++ g s) := by
  induction l generalizing acc with
  | nil => simp
  | cons hd tl ih =>
    rw [List.foldl_cons, ih]
    simp [List.flatMap_cons, List.append_assoc]

/-- `checkShorthandConflicts` as a flat concatenation over the table. -/
theorem checkShorthandConflicts_eq (props1 props2 : PropMap) :
    checkShorthandConflicts props1 props2 =
      shorthandExpansions.flatMap (fun s =>
        (if hasProp props1 s.1 then s.2.filter (fun lh => hasProp props2 lh) else []) ++
        (if hasProp props2 s.1 then s.2.filter (fun lh => hasProp props1 lh) else [])) := by
  unfold checkShorthandConflicts
  exact foldl_append_blocks _ _ _ []

/-- The direct-collision scan over one and the same expanded map finds
nothing: a key's value never differs from itself. -/
theorem direct_self_eq_nil (e : PropMap) :
    (e.filterMap (fun kv =>
      match lookupProp e kv.1 with
      | some v2 => if lookupProp e kv.1 ≠ some v2 then some kv.1 else none
      | none => none)) = [] := by
  rw [List.filterMap_eq_nil_iff]
  intro kv _
  cases hl : lookupProp e kv.1 with
  | none => simp [hl]
  | some v => simp [hl]

/-- With no shorthand/longhand co-occurrence inside a single map, the
shorthand cross-check of that map against itself is empty. -/
theorem checkShorthand_self_eq_nil (props : PropMap)
    (hmix : ∀ p ∈ shorthandExpansions, hasProp props p.1 = true →
      ∀ lh ∈ p.2, hasProp props lh = false) :
    checkShorthandConflicts props props = [] := by
  rw [checkShorthandConflicts_eq, List.flatMap_eq_nil_iff]
  intro p hp
  have hdir : (if hasProp props p.1 then p.2.filter (fun lh => hasProp props lh) else []) = [] := by
    by_cases h : hasProp props p.1
    · rw [if_pos h, List.filter_eq_nil_iff]
      intro lh hlh
      simp [hmix p hp h lh hlh]
    · rw [if_neg h]
  rw [hdir]
  simp

/-! ## C1 -/

/-- C1 counterexample: on the selector `.active` the code returns a type
count of `0` — the class component is non-empty, yet no flooring to `1`
happens, contradicting the claimed `max(1, type_count)` behaviour. -/
theorem c1_no_flooring_counterexample :
    calculateSpecificity ".active" = (0, 1, 0) ∧
    specificitySpec (parseSelectorParts ".active") = (0, 1, 1) ∧
    calculateSpecificity ".active" ≠ specificitySpec (parseSelectorParts ".active") := by
  decide

/-- C1 (amended): for every selector string the Specificity Calculator
returns `(id_count, class_count, type_count)` with `id_count = |ids|`,
`class_count = |classes| + |attributes| + |pseudos|` and
`type_count = |types|` — with no flooring of the type count — and an empty
selector yields `(0, 0, 0)`. -/
theorem c1_specificity_components :
    (∀ s : String, calculateSpecificity s = specificityAmended (parseSelectorParts s)) ∧
    calculateSpecificity "" = (0, 0, 0) :=
  ⟨fun _ => rfl, by decide⟩

/-! ## C2 -/

/-- C2 counterexample: two rules with exactly equal property maps that
contain both `margin` and its longhand `margin-top` are reported as
conflicting on `margin-top`, so identical maps do not guarantee an empty
conflict set. -/
theorem c2_identical_props_counterexample :
    detectConflicts ⟨"Button", [("margin", "1"), ("margin-top", "1")], none⟩
        ⟨"Button", [("margin", "1"), ("margin-top", "1")], none⟩ = ["margin-top"] ∧
    (["margin-top"] : List String) ≠ ([] : List String) := by
  decide

/-- C2 (amended): if the two rules' property maps are exactly equal and no
shorthand of the expansion table co-occurs with one of its own longhand
children inside that shared map, the Property Conflict Detector reports no
conflicts; with such a co-occurrence the longhand is reported even though
the maps are identical. -/
theorem c2_identical_props_no_conflict (rule1 rule2 : ParsedRule)
    (heq : rule1.properties = rule2.properties)
    (hmix : ∀ p ∈ shorthandExpansions, hasProp rule1.properties p.1 = true →
      ∀ lh ∈ p.2, hasProp rule1.properties lh = false) :
    detectConflicts rule1 rule2 = [] := by
  rw [heq] at hmix
  simp only [detectConflicts, heq]
  rw [direct_self_eq_nil, checkShorthand_self_eq_nil _ hmix]
  rfl

/-- C2 witness: equal maps with a shorthand but none of its longhands. -/
theorem c2_identical_props_no_conflict_witness :
    detectConflicts ⟨"a", [("color", "red"), ("margin", "1")], none⟩
      ⟨"a", [("color", "red"), ("margin", "1")], none⟩ = [] :=
  c2_identical_props_no_conflict _ _ rfl (by decide)

/-! ## C7 -/

/-- C7: whenever one of the two rules — in either orientation — declares a
table shorthand and the other rule declares one of that shorthand's
longhand children, the longhand name is reported by `detect_conflicts` —
regardless of the declared values. -/
theorem c7_shorthand_longhand_reported (rule1 rule2 : ParsedRule)
    (sh : String) (lhs : List String) (lh : String)
    (htab : (sh, lhs) ∈ shorthandExpansions) (hlh : lh ∈ lhs)
    (hdecl : (hasProp rule1.properties sh = true ∧ hasProp rule2.properties lh = true) ∨
      (hasProp rule2.properties sh = true ∧ hasProp rule1.properties lh = true)) :
    lh ∈ detectConflicts rule1 rule2 := by
  simp only [detectConflicts, List.mem_dedup, List.mem_append]
  right
  rw [checkShorthandConflicts_eq]
  rw [List.mem_flatMap]
  refine ⟨(sh, lhs), htab, ?_⟩
  rw [List.mem_append]
  rcases hdecl with ⟨h1, h2⟩ | ⟨h1, h2⟩
  · left
    rw [if_pos h1, List.mem_filter]
    exact ⟨hlh, h2⟩
  · right
    rw [if_pos h1, List.mem_filter]
    exact ⟨hlh, h2⟩

/-- C7 witness: `margin: "1 2 3 4"` against `margin-top: "5"` yields a
conflict set containing `margin-top`, in both orientations of the pair. -/
theorem c7_shorthand_longhand_reported_witness :
    "margin-top" ∈ detectConflicts ⟨"a", [("margin", "1 2 3 4")], none⟩
      ⟨"b", [("margin-top", "5")], none⟩ ∧
    "margin-top" ∈ detectConflicts ⟨"b", [("margin-top", "5")], none⟩
      ⟨"a", [("margin", "1 2 3 4")], none⟩ :=
  ⟨c7_shorthand_longhand_reported _ _ "margin"
    ["margin-top", "margin-right", "margin-bottom", "margin-left"] "margin-top"
    (by decide) (by decide) (Or.inl ⟨by decide, by decide⟩),
   c7_shorthand_longhand_reported _ _ "margin"
    ["margin-top", "margin-right", "margin-bottom", "margin-left"] "margin-top"
    (by decide) (by decide) (Or.inr ⟨by decide, by decide⟩)⟩

/-! ## C8 -/

/-- The heuristic overlap test commutes: all three component tests are
symmetric set intersections. -/
theorem hasPartialOverlap_comm (p1 p2 : SelectorParts) :
    hasPartialOverlap p1 p2 = hasPartialOverlap p2 p1 := by
  unfold hasPartialOverlap
  rw [Finset.inter_comm p1.types, Finset.inter_comm p1.ids, Finset.inter_comm p1.classes]

/-- C8: pairwise overlap classification is symmetric over all four
outcomes. -/
theorem c8_analyze_overlap_symm (a b : String) :
    analyzeOverlap a b = analyzeOverlap b a := by
  unfold analyzeOverlap
  by_cases hab : a = b
  · subst hab; rfl
  · have hba : ¬b = a := fun h => hab h.symm
    rw [if_neg hab, if_neg hba]
    by_cases h12 : isSubsetParts (parseSelectorParts a) (parseSelectorParts b) = true
    · by_cases h21 : isSubsetParts (parseSelectorParts b) (parseSelectorParts a) = true
      · simp [h12, h21]
      · simp [h12, h21]
    · by_cases h21 : isSubsetParts (parseSelectorParts b) (parseSelectorParts a) = true
      · simp [h12, h21]
      · simp [h12, h21, hasPartialOverlap_comm (parseSelectorParts a) (parseSelectorParts b)]

/-! ## C6 -/

/-- C6: when the external parse raises any of the three distinguished error
kinds, `analyze_conflicts` returns (rather than throws) a result carrying a
single parse-error suggestion and a `parsing_errors` entry, with no partial
conflict data: conflicts, overlapping selectors and specificity issues are
all empty. -/
theorem c6_parse_error_result (e : ParseError) :
    (analyzeConflicts (Except.error e)).resolution_suggestions =
      ["CSS parsing error: " ++ e.message] ∧
    (analyzeConflicts (Except.error e)).resolution_suggestions.length = 1 ∧
    (analyzeConflicts (Except.error e)).property_conflicts =
      [("parsing_errors", [e.message])] ∧
    (analyzeConflicts (Except.error e)).conflicts = [] ∧
    (analyzeConflicts (Except.error e)).overlapping_selectors = [] ∧
    (analyzeConflicts (Except.error e)).specificity_issues = [] :=
  ⟨rfl, rfl, rfl, rfl, rfl, rfl⟩

/-! ## C9 -/

/-- C9: `summary.has_issues` is true exactly when the conflicts list or the
overlapping-selectors list is non-empty; specificity issues alone never set
it, as shown by a concrete analysis whose only findings are specificity
issues. -/
theorem c9_has_issues_iff :
    (∀ r : ConflictAnalysisResult,
      r.summary.has_issues = true ↔ (r.conflicts ≠ [] ∨ r.overlapping_selectors ≠ [])) ∧
    ((analyzeConflictsCore [⟨"#a#b", [("color", "red")], none⟩]).summary.has_issues = false ∧
      0 < (analyzeConflictsCore
        [⟨"#a#b", [("color", "red")], none⟩]).summary.total_specificity_issues) := by
  refine ⟨?_, by decide, by decide⟩
  intro r
  simp only [ConflictAnalysisResult.summary, Bool.or_eq_true, decide_eq_true_eq]
  rw [List.length_pos, List.length_pos]

/-! ## C4 -/

/-- C4: every overlap group in the analysis result with overlap type
`exact` — whether found by the analyzer or appended by the orchestrator for
a duplicated selector (the shared, aliased list) — contributes its
duplicate-selectors/merge message to `resolution_suggestions`. -/
theorem c4_exact_overlap_merge_suggestion
    (parsed : Except ParseError (List ParsedRule)) (g : SelectorOverlap)
    (hg : g ∈ (analyzeConflicts parsed).overlapping_selectors)
    (ht : g.overlap_type = "exact") :
    duplicateSelectorsMsg g.selectors ∈ (analyzeConflicts parsed).resolution_suggestions := by
  cases parsed with
  | error e => exact absurd hg (by simp [analyzeConflicts])
  | ok rules =>
    have hkey : (analyzeConflicts (Except.ok rules)).resolution_suggestions =
        (analyzeConflicts (Except.ok rules)).overlapping_selectors.flatMap
          suggestSelectorImprovements := rfl
    rw [hkey, List.mem_flatMap]
    exact ⟨g, hg, by simp [suggestSelectorImprovements, ht]⟩

/-- C4 witness: a stylesheet with two `Button` rules gets an appended
`exact` overlap group whose merge message appears in the suggestions. -/
theorem c4_exact_overlap_merge_suggestion_witness :
    duplicateSelectorsMsg ["Button", "Button"] ∈
      (analyzeConflicts (Except.ok
        [⟨"Button", [("color", "red")], some 1⟩,
         ⟨"Button", [("color", "green")], some 5⟩])).resolution_suggestions :=
  c4_exact_overlap_merge_suggestion _
    ⟨["Button", "Button"], "exact", [(0, 0, 1), (0, 0, 1)]⟩ (by decide) rfl

/-! ## C5 -/

/-- The `exact` verdict of the pairwise classifier forces string identity. -/
theorem analyzeOverlap_eq_exact {a b : String}
    (h : analyzeOverlap a b = some "exact") : a = b := by
  by_contra hab
  simp only [analyzeOverlap, if_neg hab] at h
  split_ifs at h with h1 h2 h3
  · exact absurd (Option.some.inj h) (by decide)
  · exact absurd (Option.some.inj h) (by decide)
  · exact absurd (Option.some.inj h) (by decide)

/-- A group is typed `exact` only when an `exact` pairwise verdict was
observed while collecting it. -/
theorem overallType_eq_exact {o : Finset String} (h : overallType o = "exact") :
    "exact" ∈ o := by
  by_contra hmem
  unfold overallType at h
  rw [if_neg hmem] at h
  by_cases h2 : "subset" ∈ o
  · rw [if_pos h2] at h; exact absurd h (by decide)
  · rw [if_neg h2] at h; exact absurd h (by decide)

/-- Any group emitted by the grouping worker with type `exact` starts with
a seed that is repeated among its later members. -/
theorem fogAux_exact_repeated_seed (rem : List String) (processed : Finset String) :
    ∀ g ∈ findOverlappingGroupsAux rem processed, g.overlap_type = "exact" →
      ∃ h t, g.selectors = h :: t ∧ h ∈ t := by
  induction rem generalizing processed with
  | nil =>
    intro g hg
    simp [findOverlappingGroupsAux] at hg
  | cons sel1 rest ih =>
    intro g hg ht
    simp only [findOverlappingGroupsAux] at hg
    by_cases hp : sel1 ∈ processed
    · rw [if_pos hp] at hg
      exact ih _ g hg ht
    · rw [if_neg hp] at hg
      by_cases hlen :
          1 < (sel1 :: rest.filter (fun sel2 => (analyzeOverlap sel1 sel2).isSome)).length
      · rw [if_pos hlen] at hg
        rcases List.mem_cons.mp hg with hgeq | hgtail
        · subst hgeq
          have hex : "exact" ∈
              (rest.filterMap (fun sel2 => analyzeOverlap sel1 sel2)).toFinset :=
            overallType_eq_exact ht
          rw [List.mem_toFinset, List.mem_filterMap] at hex
          obtain ⟨sel2, hsel2, hov⟩ := hex
          have heq : sel1 = sel2 := analyzeOverlap_eq_exact hov
          refine ⟨sel1, _, rfl, ?_⟩
          rw [List.mem_filter]
          exact ⟨heq ▸ hsel2, by rw [← heq] at hov; simp [hov]⟩
        · exact ih _ g hgtail ht
      · rw [if_neg hlen] at hg
        exact ih _ g hg ht

/-- The duplicate-selector pass preserves the repeated-seed property of
`exact` groups: groups it appends are non-trivial replications. -/
theorem dupPass_exact_repeated_seed (idx : List (String × List ParsedRule))
    (init : List StyleConflict × List SelectorOverlap)
    (h0 : ∀ g ∈ init.2, g.overlap_type = "exact" → ∃ h t, g.selectors = h :: t ∧ h ∈ t) :
    ∀ g ∈ (idx.foldl duplicateSelectorStep init).2, g.overlap_type = "exact" →
      ∃ h t, g.selectors = h :: t ∧ h ∈ t := by
  induction idx generalizing init with
  | nil => exact h0
  | cons kv rest ih =>
    rw [List.foldl_cons]
    refine ih _ ?_
    intro g hg ht
    simp only [duplicateSelectorStep] at hg
    by_cases hlen : 1 < kv.2.length
    · rw [if_pos hlen] at hg
      by_cases hany : init.2.any (fun ov => ov.selectors.contains kv.1) = true
      · simp only [if_pos hany] at hg
        exact h0 g hg ht
      · simp only [if_neg hany, List.mem_append] at hg
        rcases hg with hg | hg
        · exact h0 g hg ht
        · rw [List.mem_singleton] at hg
          subst hg
          obtain ⟨m, hm⟩ : ∃ m, kv.2.length = m + 2 := ⟨kv.2.length - 2, by omega⟩
          refine ⟨kv.1, List.replicate (m + 1) kv.1, ?_, ?_⟩
          · simp only [hm, List.replicate_succ]
          · exact List.mem_replicate.mpr ⟨Nat.succ_ne_zero m, rfl⟩
    · rw [if_neg hlen] at hg
      exact h0 g hg ht

/-- C5 counterexample: with input `["Button", "Button", "Button.active"]`
the analyzer returns a single group typed `exact` that also contains the
distinct selector `Button.active`, so `exact` does not mean all members are
textually identical. -/
theorem c5_exact_group_counterexample :
    (findOverlappingGroups ["Button", "Button", "Button.active"]).map
      (fun g => (g.selectors, g.overlap_type)) =
      [(["Button", "Button", "Button.active"], "exact")] ∧
    ("Button" : String) ≠ "Button.active" := by
  decide

/-- C5 (amended): a group carries overlap type `exact` only if its first
selector occurs again among its later members (at least two members are
textually identical) — not necessarily all of them; this holds both for
`find_overlapping_groups` output and for every group in an analysis
result, the orchestrator-appended groups being outright replications. -/
theorem c5_exact_implies_repeated_seed :
    (∀ (selectors : List String) (g : SelectorOverlap),
      g ∈ findOverlappingGroups selectors → g.overlap_type = "exact" →
      ∃ h t, g.selectors = h :: t ∧ h ∈ t) ∧
    (∀ (parsed : Except ParseError (List ParsedRule)) (g : SelectorOverlap),
      g ∈ (analyzeConflicts parsed).overlapping_selectors → g.overlap_type = "exact" →
      ∃ h t, g.selectors = h :: t ∧ h ∈ t) := by
  constructor
  · intro selectors
    exact fogAux_exact_repeated_seed selectors ∅
  · intro parsed g hg ht
    cases parsed with
    | error e => exact absurd hg (by simp [analyzeConflicts])
    | ok rules =>
      refine dupPass_exact_repeated_seed _ _ ?_ g hg ht
      intro g' hg' ht'
      exact fogAux_exact_repeated_seed _ ∅ g' hg' ht'

/-- C5 witness: the amended statement applied to the counterexample input. -/
theorem c5_exact_implies_repeated_seed_witness :
    ∃ h t, (SelectorOverlap.mk ["Button", "Button", "Button.active"] "exact"
      [(0, 0, 1), (0, 0, 1), (0, 1, 1)]).selectors = h :: t ∧ h ∈ t :=
  c5_exact_implies_repeated_seed.1 ["Button", "Button", "Button.active"]
    ⟨["Button", "Button", "Button.active"], "exact", [(0, 0, 1), (0, 0, 1), (0, 1, 1)]⟩
    (by decide) rfl

/-! ## C3 -/

/-- C3 counterexample: in `["Button", ".active", "Button.active"]` the
selector `Button.active` is placed into the `Button` group and still joins
the later `.active` group, so a selector can appear in two groups. -/
theorem c3_selector_in_two_groups_counterexample :
    (findOverlappingGroups ["Button", ".active", "Button.active"]).map
      SelectorOverlap.selectors =
      [["Button", "Button.active"], [".active", "Button.active"]] ∧
    ((findOverlappingGroups ["Button", ".active", "Button.active"]).filter
      (fun g => g.selectors.contains "Button.active")).length = 2 := by
  decide

/-- Grouping-worker invariant: every emitted group's seed avoids the
processed set, and a later group's seed never occurs anywhere in an
earlier group. -/
theorem fogAux_seed_fresh (rem : List String) (processed : Finset String) :
    (∀ g ∈ findOverlappingGroupsAux rem processed,
      ∀ s, g.selectors.head? = some s → s ∉ processed) ∧
    List.Pairwise (fun g1 g2 => ∀ s, g2.selectors.head? = some s → s ∉ g1.selectors)
      (findOverlappingGroupsAux rem processed) := by
  induction rem generalizing processed with
  | nil => simp [findOverlappingGroupsAux]
  | cons sel1 rest ih =>
    by_cases hp : sel1 ∈ processed
    · have hrw : findOverlappingGroupsAux (sel1 :: rest) processed =
          findOverlappingGroupsAux rest processed := by
        simp only [findOverlappingGroupsAux, if_pos hp]
      rw [hrw]
      exact ih processed
    · have hsub : processed ⊆ insert sel1 (processed ∪
          (rest.filter (fun sel2 => (analyzeOverlap sel1 sel2).isSome)).toFinset) := by
        intro x hx
        exact Finset.mem_insert_of_mem (Finset.mem_union_left _ hx)
      obtain ⟨ih1, ih2⟩ := ih (insert sel1 (processed ∪
        (rest.filter (fun sel2 => (analyzeOverlap sel1 sel2).isSome)).toFinset))
      have hfresh : ∀ g ∈ findOverlappingGroupsAux rest
          (insert sel1 (processed ∪
            (rest.filter (fun sel2 => (analyzeOverlap sel1 sel2).isSome)).toFinset)),
          ∀ s, g.selectors.head? = some s →
            s ∉ (sel1 :: rest.filter (fun sel2 => (analyzeOverlap sel1 sel2).isSome)) := by
        intro g hg s hs hmem
        have hnot := ih1 g hg s hs
        rcases List.mem_cons.mp hmem with hseq | hsemem
        · exact hnot (by rw [hseq]; exact Finset.mem_insert_self _ _)
        · exact hnot (Finset.mem_insert_of_mem
            (Finset.mem_union_right _ (List.mem_toFinset.mpr hsemem)))
      by_cases hlen :
          1 < (sel1 :: rest.filter (fun sel2 => (analyzeOverlap sel1 sel2).isSome)).length
      · have hrw : findOverlappingGroupsAux (sel1 :: rest) processed =
            { selectors := sel1 :: rest.filter (fun sel2 => (analyzeOverlap sel1 sel2).isSome)
              overlap_type := overallType
                (rest.filterMap (fun sel2 => analyzeOverlap sel1 sel2)).toFinset
              specificity_scores :=
                (sel1 :: rest.filter (fun sel2 => (analyzeOverlap sel1 sel2).isSome)).map
                  calculateSpecificity } ::
              findOverlappingGroupsAux rest (insert sel1 (processed ∪
                (rest.filter (fun sel2 => (analyzeOverlap sel1 sel2).isSome)).toFinset)) := by
          simp only [findOverlappingGroupsAux, if_neg hp, if_pos hlen]
        rw [hrw]
        constructor
        · intro g hg s hs
          rcases List.mem_cons.mp hg with hgeq | hgtail
          · subst hgeq
            simp only [List.head?_cons, Option.some.injEq] at hs
            exact hs ▸ hp
          · intro hsp
            exact ih1 g hgtail s hs (hsub hsp)
        · exact List.pairwise_cons.mpr ⟨fun g2 hg2 s hs => hfresh g2 hg2 s hs, ih2⟩
      · have hrw : findOverlappingGroupsAux (sel1 :: rest) processed =
            findOverlappingGroupsAux rest (insert sel1 (processed ∪
              (rest.filter (fun sel2 => (analyzeOverlap sel1 sel2).isSome)).toFinset)) := by
          simp only [findOverlappingGroupsAux, if_neg hp, if_neg hlen]
        rw [hrw]
        refine ⟨fun g hg s hs hsp => ih1 g hg s hs (hsub hsp), ih2⟩

/-- C3 (amended): a selector that has been placed into a group never starts
a later group — the seed (first selector) of every returned group occurs in
no earlier group — though, as the counterexample shows, it may still join a
later group as a non-seed member. -/
theorem c3_seed_never_regrouped (selectors : List String) :
    List.Pairwise (fun g1 g2 => ∀ s, g2.selectors.head? = some s → s ∉ g1.selectors)
      (findOverlappingGroups selectors) :=
  (fogAux_seed_fresh selectors ∅).2

/-! ## C10 -/

/-- Appending to a bucketed association list preserves any per-bucket
membership invariant, provided the new value satisfies it for its key. -/
theorem alistAppend_bucket_inv {β : Type} (P : String → β → Prop)
    (al : List (String × List β)) (key : String) (val : β)
    (hal : ∀ kv ∈ al, ∀ v ∈ kv.2, P kv.1 v) (hv : P key val) :
    ∀ kv ∈ alistAppend al key val, ∀ v ∈ kv.2, P kv.1 v := by
  induction al with
  | nil =>
    intro kv hkv v hvmem
    rw [alistAppend] at hkv
    rw [List.mem_singleton] at hkv
    subst hkv
    rw [List.mem_singleton] at hvmem
    exact hvmem ▸ hv
  | cons hd tl ih =>
    intro kv hkv v hvmem
    rw [alistAppend] at hkv
    by_cases hk : hd.1 = key
    · rw [if_pos hk] at hkv
      rcases List.mem_cons.mp hkv with heq | htl
      · subst heq
        rcases List.mem_append.mp hvmem with hv1 | hv2
        · exact hal hd (List.mem_cons_self _ _) v hv1
        · rw [List.mem_singleton] at hv2
          subst hv2
          exact hk ▸ hv
      · exact hal kv (List.mem_cons_of_mem _ htl) v hvmem
    · rw [if_neg hk] at hkv
      rcases List.mem_cons.mp hkv with heq | htl
      · subst heq
        exact hal hd (List.mem_cons_self _ _) v hvmem
      · exact ih (fun kv' h' => hal kv' (List.mem_cons_of_mem _ h')) kv htl v hvmem

/-- The keys appearing after a bucket append are the old keys or the new key. -/
theorem alistAppend_keys_subset {β : Type} (al : List (String × List β))
    (key : String) (val : β) :
    ∀ k ∈ (alistAppend al key val).map Prod.fst, k ∈ al.map Prod.fst ∨ k = key := by
  induction al with
  | nil =>
    intro k hk
    rw [alistAppend] at hk
    simp at hk
    exact Or.inr hk
  | cons hd tl ih =>
    intro k hk
    rw [alistAppend] at hk
    by_cases hkey : hd.1 = key
    · rw [if_pos hkey] at hk
      simp only [List.map_cons, List.mem_cons] at hk ⊢
      rcases hk with hk | hk
      · exact Or.inl (Or.inl hk)
      · exact Or.inl (Or.inr hk)
    · rw [if_neg hkey] at hk
      simp only [List.map_cons, List.mem_cons] at hk ⊢
      rcases hk with hk | hk
      · exact Or.inl (Or.inl hk)
      · rcases ih k hk with h | h
        · exact Or.inl (Or.inr h)
        · exact Or.inr h

/-- A bucket append keeps the key list duplicate-free. -/
theorem alistAppend_keys_nodup {β : Type} (al : List (String × List β))
    (key : String) (val : β) (h : (al.map Prod.fst).Nodup) :
    ((alistAppend al key val).map Prod.fst).Nodup := by
  induction al with
  | nil =>
    rw [alistAppend]
    simp
  | cons hd tl ih =>
    rw [alistAppend]
    rw [List.map_cons, List.nodup_cons] at h
    by_cases hkey : hd.1 = key
    · rw [if_pos hkey, List.map_cons, List.nodup_cons]
      exact h
    · rw [if_neg hkey, List.map_cons, List.nodup_cons]
      refine ⟨?_, ih h.2⟩
      intro hmem
      rcases alistAppend_keys_subset tl key val hd.1 hmem with hin | heq
      · exact h.1 hin
      · exact hkey heq

/-- Flattening the buckets after an append is a permutation of the old
flattening with the new value at the end. -/
theorem alistAppend_flatten_perm {β : Type} (al : List (String × List β))
    (key : String) (val : β) :
    List.Perm (((alistAppend al key val).map Prod.snd).flatten)
      ((al.map Prod.snd).flatten ++ [val]) := by
  induction al with
  | nil =>
    rw [alistAppend]
    simp
  | cons hd tl ih =>
    rw [alistAppend]
    by_cases hkey : hd.1 = key
    · rw [if_pos hkey]
      simp only [List.map_cons, List.flatten_cons, List.append_assoc]
      exact List.Perm.append_left hd.2 (List.perm_append_comm.trans (List.Perm.refl _))
    · rw [if_neg hkey]
      simp only [List.map_cons, List.flatten_cons, List.append_assoc]
      exact List.Perm.append_left hd.2 ih

/-- Folding the categorizer over the input flattens to a permutation of
the accumulator's contents followed by the input. -/
theorem categorize_fold_flatten_perm (cs : List String)
    (al : List (String × List String)) :
    List.Perm (((cs.foldl (fun buckets c => alistAppend buckets (firstCategory c) c)
        al).map Prod.snd).flatten)
      ((al.map Prod.snd).flatten ++ cs) := by
  induction cs generalizing al with
  | nil => simp
  | cons c cs' ih =>
    rw [List.foldl_cons]
    refine (ih _).trans ?_
    refine (List.Perm.append_right cs' (alistAppend_flatten_perm al (firstCategory c) c)).trans ?_
    rw [List.append_assoc]
    exact List.Perm.refl _

/-- C10: `categorize_conflicts` files every input name under exactly one
bucket — the first group, in fixed table order, containing it (so
`border-color`, listed under both `colors` and `borders`, lands in
`colors`) — bucket keys are pairwise distinct, and the concatenation of all
buckets is a permutation of the input list. -/
theorem c10_categorize_conflicts (conflicts : List String) :
    (∀ kv ∈ categorizeConflicts conflicts, ∀ n ∈ kv.2, firstCategory n = kv.1) ∧
    ((categorizeConflicts conflicts).map Prod.fst).Nodup ∧
    List.Perm (((categorizeConflicts conflicts).map Prod.snd).flatten) conflicts ∧
    firstCategory "border-color" = "colors" := by
  refine ⟨?_, ?_, ?_, by decide⟩
  · unfold categorizeConflicts
    induction conflicts using List.reverseRecOn with
    | nil => intro kv hkv; simp at hkv
    | append_singleton cs c ih =>
      rw [List.foldl_append, List.foldl_cons, List.foldl_nil]
      exact alistAppend_bucket_inv (fun k v => firstCategory v = k) _ _ _ ih rfl
  · unfold categorizeConflicts
    induction conflicts using List.reverseRecOn with
    | nil => simp
    | append_singleton cs c ih =>
      rw [List.foldl_append, List.foldl_cons, List.foldl_nil]
      exact alistAppend_keys_nodup _ _ _ ih
  · unfold categorizeConflicts
    simpa using categorize_fold_flatten_perm conflicts []

end TextualCSS
